import Mathlib

/-!
# Newsletter service and repository: shallow embedding

Embedding of `src/newsletter/src/service/newsletter/mod.rs`
(`DefaultNewsletterService`) and
`src/newsletter/src/repository/newsletter/postgres.rs`
(`PostgresNewsletterRepository`), together with the storage semantics of the
`newsletters` table declared in
`src/newsletter/src/infrastructure/db/db_schema.rs`
(`id BigInt` surrogate key, `email Text` unique, `active Bool`,
`created_at Timestamptz`).

The database is modelled as a list of rows plus the next surrogate id; SQL
statements become pure functions on that state.  The service layer is
modelled generically over an abstract repository whose operations may fail,
mirroring the `NewsletterRepository` trait of
`src/newsletter/src/repository/newsletter/mod.rs`; the Postgres
implementation is the deterministic instance in which no infrastructure
failure occurs.
-/

/-- Domain object `Newsletter` (module `domain::newsletter`): as constructed
in `postgres.rs` it carries the `email` and `active` fields of a row. -/
structure Newsletter where
  email : String
  active : Bool
  deriving DecidableEq, Repr

/-- A stored row of the `newsletters` table (`NewsletterRow` in
`postgres.rs`): surrogate `id`, `email`, `active`.  `created_at` plays no
role in any claim and is omitted. -/
structure NewsletterRow where
  id : Nat
  email : String
  active : Bool
  deriving DecidableEq, Repr

/-- State of the `newsletters` table: the stored rows (in arbitrary order)
and the next value of the auto-incremented surrogate id.  The uniqueness of
`email` is the invariant `Db.EmailUnique` below, enforced in SQL by the
unique constraint that `ON CONFLICT (email)` targets. -/
structure Db where
  rows : List NewsletterRow
  nextId : Nat
  deriving Repr

/-- The empty table. -/
def Db.empty : Db := ⟨[], 0⟩

/-- At most one row per email (the storage-layer uniqueness constraint). -/
def Db.EmailUnique (db : Db) : Prop :=
  ∀ r s, r ∈ db.rows → s ∈ db.rows → r.email = s.email → r = s

/-- Every stored id is below the counter (auto-increment invariant). -/
def Db.IdsBelow (db : Db) : Prop :=
  ∀ r ∈ db.rows, r.id < db.nextId

/-- `PostgresNewsletterRepository::add`:
`INSERT INTO newsletters (email, active) VALUES ($1, true)
ON CONFLICT (email) DO NOTHING`.  When a row with the same email exists the
insert is skipped and the table is unchanged; otherwise a fresh row with
`active = true` and the next surrogate id is stored. -/
def Db.add (db : Db) (email : String) : Db :=
  if db.rows.any (fun r => r.email == email) then db
  else { rows := db.rows ++ [⟨db.nextId, email, true⟩], nextId := db.nextId + 1 }

/-- `PostgresNewsletterRepository::delete`:
`DELETE FROM newsletters WHERE email = $1`.  Removes every row whose email
equals the argument (at most one under `EmailUnique`); zero affected rows is
still success. -/
def Db.delete (db : Db) (email : String) : Db :=
  { db with rows := db.rows.filter (fun r => !(r.email == email)) }

/-- `PostgresNewsletterRepository::get_by_email`:
`SELECT ... FROM newsletters WHERE email = $1` with `.first(...).optional()`:
the first matching row, or `none` when there is no match, mapped to the
domain object. -/
def Db.get_by_email (db : Db) (email : String) : Option Newsletter :=
  (db.rows.find? (fun r => r.email == email)).map
    (fun r => { email := r.email, active := r.active })

/-- The rows in the order produced by `ORDER BY id DESC`: sorted so that
larger ids come first. -/
def Db.sortedRows (db : Db) : List NewsletterRow :=
  db.rows.insertionSort (fun a b => b.id ≤ a.id)

/-- `PostgresNewsletterRepository::list`:
`SELECT ... FROM newsletters ORDER BY id DESC`, each row mapped to the
domain object. -/
def Db.list (db : Db) : List Newsletter :=
  db.sortedRows.map (fun r => { email := r.email, active := r.active })

/-- Rust `email.trim().is_empty()`: true exactly when every character of the
string is whitespace (nothing survives trimming). -/
def blank (email : String) : Bool :=
  email.data.all (fun c => c.isWhitespace)

/-- Rust `email.contains('@')`: the string has the character `'@'`. -/
def hasAt (email : String) : Bool :=
  email.data.contains '@'

/-- An error produced inside the repository layer (connection acquisition or
query execution failure); carried opaquely, as `anyhow::Error` is. -/
structure RepoError where
  msg : String
  deriving DecidableEq, Repr

/-- An error surfaced by the service layer: either a validation error the
service itself fabricates (`anyhow::anyhow!(...)` in `subscribe` /
`unsubscribe`) or an error propagated unchanged from the repository. -/
inductive Err where
  | validation (msg : String)
  | repo (e : RepoError)
  deriving DecidableEq, Repr

/-- The `NewsletterRepository` trait (`repository/newsletter/mod.rs`) over a
state type `σ`: each operation either fails with a `RepoError` — in which
case, by single-statement atomicity, the state is unchanged, so only the
error is returned — or succeeds.  `add` and `delete` return the new state;
`list` and `get_by_email` are reads and return only their result. -/
structure NewsletterRepository (σ : Type) where
  list : σ → Except RepoError (List Newsletter)
  add : String → σ → Except RepoError σ
  delete : String → σ → Except RepoError σ
  get_by_email : String → σ → Except RepoError (Option Newsletter)

/-- The Postgres repository instance over the table model: the semantics of
the SQL statements when no infrastructure failure intervenes. -/
def pgRepo : NewsletterRepository Db where
  list := fun db => .ok db.list
  add := fun email db => .ok (db.add email)
  delete := fun email db => .ok (db.delete email)
  get_by_email := fun email db => .ok (db.get_by_email email)

/-- `DefaultNewsletterService::list_newsletters`: pass-through to the
repository's `list`. -/
def list_newsletters {σ : Type} (R : NewsletterRepository σ) (s : σ) :
    Except Err (List Newsletter) :=
  match R.list s with
  | .ok ns => .ok ns
  | .error e => .error (.repo e)

/-- `DefaultNewsletterService::subscribe`: rejects a blank email
(`email.trim().is_empty()`), then an email without `'@'`
(`!email.contains('@')`), each with a service-made error; otherwise
delegates to the repository's `add`.  Returns the resulting state together
with the error, if any; on any error the state is unchanged. -/
def subscribe {σ : Type} (R : NewsletterRepository σ) (email : String)
    (s : σ) : σ × Option Err :=
  if blank email then
    (s, some (.validation "Email cannot be empty"))
  else if !(hasAt email) then
    (s, some (.validation "Invalid email format"))
  else
    match R.add email s with
    | .ok s' => (s', none)
    | .error e => (s, some (.repo e))

/-- `DefaultNewsletterService::unsubscribe`: rejects a blank email with a
service-made error; otherwise delegates to the repository's `delete`. -/
def unsubscribe {σ : Type} (R : NewsletterRepository σ) (email : String)
    (s : σ) : σ × Option Err :=
  if blank email then
    (s, some (.validation "Email cannot be empty"))
  else
    match R.delete email s with
    | .ok s' => (s', none)
    | .error e => (s, some (.repo e))

/-- `DefaultNewsletterService::get_subscription_status`: looks the email up
via the repository's `get_by_email`; `Some(newsletter) => Ok(newsletter.active)`,
`None => Ok(false)`, and a repository error propagates. -/
def get_subscription_status {σ : Type} (R : NewsletterRepository σ)
    (email : String) (s : σ) : Except Err Bool :=
  match R.get_by_email email s with
  | .ok (some n) => .ok n.active
  | .ok none => .ok false
  | .error e => .error (.repo e)

/-- `DefaultNewsletterService::update_subscription_status`: for each email
in order, repository `add` when `active` is true, repository `delete`
otherwise; the first failing call stops the loop and its error is returned,
with the state as left by the already-applied earlier entries. -/
def update_subscription_status {σ : Type} (R : NewsletterRepository σ)
    (emails : List String) (active : Bool) (s : σ) : σ × Option Err :=
  match emails with
  | [] => (s, none)
  | e :: rest =>
    match (if active then R.add e s else R.delete e s) with
    | .ok s' => update_subscription_status R rest active s'
    | .error err => (s, some (.repo err))

/-- `DefaultNewsletterService::delete_subscriptions`: repository `delete`
for each email in order, stopping at the first failure. -/
def delete_subscriptions {σ : Type} (R : NewsletterRepository σ)
    (emails : List String) (s : σ) : σ × Option Err :=
  match emails with
  | [] => (s, none)
  | e :: rest =>
    match R.delete e s with
    | .ok s' => delete_subscriptions R rest s'
    | .error err => (s, some (.repo err))

/-- A repository that behaves like the Postgres model except that every
write on the distinguished email `"boom@x"` fails with an infrastructure
error, modelling a mid-batch storage failure. -/
def failRepo : NewsletterRepository Db where
  list := fun db => .ok db.list
  add := fun email db =>
    if email == "boom@x" then .error ⟨"db down"⟩ else .ok (db.add email)
  delete := fun email db =>
    if email == "boom@x" then .error ⟨"db down"⟩ else .ok (db.delete email)
  get_by_email := fun email db => .ok (db.get_by_email email)

/-- C1: for every repository, state and email, `get_subscription_status`
returns `false` when the repository's `get_by_email` returns no row, and
returns the row's `active` field when a row exists. -/
theorem get_subscription_status_absence_false_else_active {σ : Type}
    (R : NewsletterRepository σ) (email : String) (s : σ) :
    (R.get_by_email email s = .ok none →
      get_subscription_status R email s = .ok false) ∧
    (∀ n : Newsletter, R.get_by_email email s = .ok (some n) →
      get_subscription_status R email s = .ok n.active) := by
  constructor
  · intro h
    simp [get_subscription_status, h]
  · intro n h
    simp [get_subscription_status, h]

/-- C1 witness: on the Postgres model with the single row `a@x.com`, the
status of `a@x.com` is that row's `active` value (`true`) and the status of
the absent `b@x.com` is `false`. -/
theorem get_subscription_status_absence_false_else_active_witness :
    get_subscription_status pgRepo "a@x.com" (Db.empty.add "a@x.com") = .ok true ∧
    get_subscription_status pgRepo "b@x.com" (Db.empty.add "a@x.com") = .ok false := by
  refine ⟨?_, ?_⟩
  · exact (get_subscription_status_absence_false_else_active pgRepo "a@x.com"
      (Db.empty.add "a@x.com")).2 ⟨"a@x.com", true⟩ rfl
  · exact (get_subscription_status_absence_false_else_active pgRepo "b@x.com"
      (Db.empty.add "a@x.com")).1 rfl

/-- C4: `subscribe` fails with the service's validation error on a blank
email or an email without `'@'`, with the state unchanged and independent of
the repository (so storage is not invoked); on any other email it delegates
to the repository's `add`. -/
theorem subscribe_validates_then_delegates {σ : Type}
    (R : NewsletterRepository σ) (email : String) (s : σ) :
    (blank email = true →
      subscribe R email s = (s, some (.validation "Email cannot be empty"))) ∧
    (blank email = false → hasAt email = false →
      subscribe R email s = (s, some (.validation "Invalid email format"))) ∧
    (blank email = false → hasAt email = true →
      subscribe R email s =
        match R.add email s with
        | .ok s' => (s', none)
        | .error e => (s, some (.repo e))) := by
  refine ⟨fun h => ?_, fun h h2 => ?_, fun h h2 => ?_⟩
  · simp [subscribe, h]
  · simp [subscribe, h, h2]
  · simp [subscribe, h, h2]

/-- C4 witness: `subscribe("")` and `subscribe("not-an-email")` return the
two validation errors leaving the empty table unchanged, and
`subscribe("a@x.com")` delegates to `add`. -/
theorem subscribe_validates_then_delegates_witness :
    subscribe pgRepo "" Db.empty =
      (Db.empty, some (.validation "Email cannot be empty")) ∧
    subscribe pgRepo "not-an-email" Db.empty =
      (Db.empty, some (.validation "Invalid email format")) ∧
    subscribe pgRepo "a@x.com" Db.empty = (Db.empty.add "a@x.com", none) := by
  refine ⟨?_, ?_, ?_⟩
  · exact (subscribe_validates_then_delegates pgRepo "" Db.empty).1 (by decide)
  · exact (subscribe_validates_then_delegates pgRepo "not-an-email" Db.empty).2.1
      (by decide) (by decide)
  · exact (subscribe_validates_then_delegates pgRepo "a@x.com" Db.empty).2.2
      (by decide) (by decide)

/-- C10: `get_subscription_status` performs no input validation: for every
email (blank ones included) an absent row gives `Ok(false)`, and any error
outcome is a repository error propagated from the lookup — never a
validation error. -/
theorem get_subscription_status_never_validates {σ : Type}
    (R : NewsletterRepository σ) (email : String) (s : σ) :
    (R.get_by_email email s = .ok none →
      get_subscription_status R email s = .ok false) ∧
    (∀ err : Err, get_subscription_status R email s = .error err →
      ∃ e : RepoError, err = .repo e ∧ R.get_by_email email s = .error e) := by
  constructor
  · intro h
    simp [get_subscription_status, h]
  · intro err h
    unfold get_subscription_status at h
    cases hg : R.get_by_email email s with
    | ok o =>
      rw [hg] at h
      cases o <;> simp at h
    | error e =>
      rw [hg] at h
      simp at h
      exact ⟨e, h.symm, rfl⟩

/-- C10 witness: the empty string is looked up without validation on the
empty table and yields `Ok(false)`. -/
theorem get_subscription_status_never_validates_witness :
    get_subscription_status pgRepo "" Db.empty = .ok false :=
  (get_subscription_status_never_validates pgRepo "" Db.empty).1 rfl

/-- C2: `add` inserts a fresh row with `active = true` when no row with the
email exists; when one already exists it is a no-op that still succeeds and
leaves every row (its `active` field included) unchanged; hence adding the
same email twice to a table without it leaves exactly one row with that
email, and that row has `active = true`. -/
theorem add_upsert_noop_idempotent (db : Db) (email : String) :
    ((∀ r ∈ db.rows, r.email ≠ email) →
      db.add email = { rows := db.rows ++ [⟨db.nextId, email, true⟩],
                       nextId := db.nextId + 1 }) ∧
    ((∃ r ∈ db.rows, r.email = email) →
      db.add email = db ∧ pgRepo.add email db = .ok db) ∧
    ((∀ r ∈ db.rows, r.email ≠ email) →
      ((db.add email).add email).rows.filter (fun r => r.email == email) =
        [⟨db.nextId, email, true⟩]) := by
  have hfresh : (∀ r ∈ db.rows, r.email ≠ email) →
      db.add email = { rows := db.rows ++ [⟨db.nextId, email, true⟩],
                       nextId := db.nextId + 1 } := by
    intro h
    have hany : db.rows.any (fun r => r.email == email) = false := by
      simp only [List.any_eq_false, beq_iff_eq]
      exact h
    simp [Db.add, hany]
  have hnoop : ∀ d : Db, (∃ r ∈ d.rows, r.email = email) → d.add email = d := by
    rintro d ⟨r, hr, he⟩
    have hany : d.rows.any (fun r => r.email == email) = true := by
      simp only [List.any_eq_true, beq_iff_eq]
      exact ⟨r, hr, he⟩
    simp [Db.add, hany]
  refine ⟨hfresh, ?_, ?_⟩
  · intro hex
    have h1 := hnoop db hex
    exact ⟨h1, by simp [pgRepo, h1]⟩
  · intro h
    rw [hfresh h]
    rw [hnoop (⟨db.rows ++ [(⟨db.nextId, email, true⟩ : NewsletterRow)],
          db.nextId + 1⟩ : Db)
        ⟨(⟨db.nextId, email, true⟩ : NewsletterRow), by simp, rfl⟩]
    show (db.rows ++ [(⟨db.nextId, email, true⟩ : NewsletterRow)]).filter
      (fun r => r.email == email) = _
    rw [List.filter_append]
    have h1 : db.rows.filter (fun r => r.email == email) = [] := by
      rw [List.filter_eq_nil_iff]
      intro r hr
      simp only [beq_iff_eq]
      exact h r hr
    rw [h1]
    simp

/-- C2 witness: adding `a@x.com` twice to the empty table succeeds both
times and leaves exactly one row for it, with `active = true`. -/
theorem add_upsert_noop_idempotent_witness :
    (Db.empty.add "a@x.com" =
      { rows := [⟨0, "a@x.com", true⟩], nextId := 1 }) ∧
    ((Db.empty.add "a@x.com").add "a@x.com" = Db.empty.add "a@x.com" ∧
      pgRepo.add "a@x.com" (Db.empty.add "a@x.com") =
        .ok (Db.empty.add "a@x.com")) ∧
    (((Db.empty.add "a@x.com").add "a@x.com").rows.filter
        (fun r => r.email == "a@x.com") = [⟨0, "a@x.com", true⟩]) := by
  refine ⟨?_, ?_, ?_⟩
  · have h := (add_upsert_noop_idempotent Db.empty "a@x.com").1 (by simp [Db.empty])
    simpa [Db.empty] using h
  · exact (add_upsert_noop_idempotent (Db.empty.add "a@x.com") "a@x.com").2.1
      ⟨⟨0, "a@x.com", true⟩, by decide, rfl⟩
  · have h := (add_upsert_noop_idempotent Db.empty "a@x.com").2.2
      (by simp [Db.empty])
    simpa [Db.empty] using h

/-- C3: `delete` removes exactly the rows with the given email and keeps
every other row; when no row with the email exists it is the identity and
still succeeds; consequently `unsubscribe` on a never-subscribed non-blank
email returns success. -/
theorem delete_absence_is_success (db : Db) (email : String) :
    (∀ r ∈ (db.delete email).rows, r.email ≠ email) ∧
    (∀ r ∈ db.rows, r.email ≠ email → r ∈ (db.delete email).rows) ∧
    ((∀ r ∈ db.rows, r.email ≠ email) →
      db.delete email = db ∧ pgRepo.delete email db = .ok db) ∧
    (blank email = false → (∀ r ∈ db.rows, r.email ≠ email) →
      unsubscribe pgRepo email db = (db, none)) := by
  have hkeep : (∀ r ∈ db.rows, r.email ≠ email) → db.delete email = db := by
    intro h
    have : db.rows.filter (fun r => !(r.email == email)) = db.rows := by
      rw [List.filter_eq_self]
      intro r hr
      simp only [Bool.not_eq_true', beq_eq_false_iff_ne, ne_eq]
      exact h r hr
    simp [Db.delete, this]
  refine ⟨?_, ?_, fun h => ⟨hkeep h, by simp [pgRepo, hkeep h]⟩, ?_⟩
  · intro r hr
    have := (List.mem_filter.mp hr).2
    simpa [beq_iff_eq] using this
  · intro r hr hne
    exact List.mem_filter.mpr ⟨hr, by simpa [beq_iff_eq] using hne⟩
  · intro hb h
    simp [unsubscribe, hb, pgRepo, hkeep h]

/-- C3 witness: deleting the absent `b@x.com` from the table holding only
`a@x.com` leaves it unchanged, and unsubscribing `b@x.com` there
succeeds. -/
theorem delete_absence_is_success_witness :
    (Db.empty.add "a@x.com").delete "b@x.com" = Db.empty.add "a@x.com" ∧
    unsubscribe pgRepo "b@x.com" (Db.empty.add "a@x.com") =
      (Db.empty.add "a@x.com", none) := by
  have h := delete_absence_is_success (Db.empty.add "a@x.com") "b@x.com"
  exact ⟨(h.2.2.1 (by decide)).1, h.2.2.2 (by decide) (by decide)⟩

/-- C5: both batch operations process the emails in list order —
`update_subscription_status` calling `add` per email when `active` is true
and `delete` when it is false, `delete_subscriptions` calling `delete` —
and when the call for some email fails after a successfully applied prefix,
the batch returns that first error, the emails after it (arbitrary `post`)
are not processed, and the state keeps the applied prefix (`s'`). -/
theorem batch_aborts_on_first_error {σ : Type} (R : NewsletterRepository σ) :
    (∀ (active : Bool) (pre post : List String) (e : String) (s s' : σ)
        (err : RepoError),
      update_subscription_status R pre active s = (s', none) →
      (if active then R.add e s' else R.delete e s') = .error err →
      update_subscription_status R (pre ++ e :: post) active s =
        (s', some (.repo err))) ∧
    (∀ (pre post : List String) (e : String) (s s' : σ) (err : RepoError),
      delete_subscriptions R pre s = (s', none) →
      R.delete e s' = .error err →
      delete_subscriptions R (pre ++ e :: post) s =
        (s', some (.repo err))) := by
  constructor
  · intro active pre
    induction pre with
    | nil =>
      intro post e s s' err hpre hfail
      simp only [update_subscription_status] at hpre
      obtain ⟨rfl, -⟩ := Prod.mk.injEq .. ▸ hpre
      simp only [List.nil_append, update_subscription_status, hfail]
    | cons a rest ih =>
      intro post e s s' err hpre hfail
      cases hop : (if active then R.add a s else R.delete a s) with
      | ok s1 =>
        simp only [update_subscription_status, hop] at hpre
        simp only [List.cons_append, update_subscription_status, hop]
        exact ih post e s1 s' err hpre hfail
      | error e1 =>
        simp only [update_subscription_status, hop, Prod.mk.injEq] at hpre
        exact absurd hpre.2 (by simp)
  · intro pre
    induction pre with
    | nil =>
      intro post e s s' err hpre hfail
      simp only [delete_subscriptions] at hpre
      obtain ⟨rfl, -⟩ := Prod.mk.injEq .. ▸ hpre
      simp only [List.nil_append, delete_subscriptions, hfail]
    | cons a rest ih =>
      intro post e s s' err hpre hfail
      cases hop : R.delete a s with
      | ok s1 =>
        simp only [delete_subscriptions, hop] at hpre
        simp only [List.cons_append, delete_subscriptions, hop]
        exact ih post e s1 s' err hpre hfail
      | error e1 =>
        simp only [delete_subscriptions, hop, Prod.mk.injEq] at hpre
        exact absurd hpre.2 (by simp)

/-- C5 witness: with a repository whose writes fail on `"boom"`, the batch
`["a@x.com", "boom@x", "c@x.com"]` applies `a@x.com`, stops at `boom@x` with
that error, and never processes `c@x.com` — for both batch operations. -/
theorem batch_aborts_on_first_error_witness :
    update_subscription_status failRepo ["a@x.com", "boom@x", "c@x.com"] true
        Db.empty =
      (Db.empty.add "a@x.com", some (.repo ⟨"db down"⟩)) ∧
    delete_subscriptions failRepo ["a@x.com", "boom@x", "c@x.com"] Db.empty =
      (Db.empty.delete "a@x.com", some (.repo ⟨"db down"⟩)) := by
  constructor
  · exact (batch_aborts_on_first_error failRepo).1 true ["a@x.com"]
      ["c@x.com"] "boom@x" Db.empty (Db.empty.add "a@x.com") ⟨"db down"⟩
      rfl rfl
  · exact (batch_aborts_on_first_error failRepo).2 ["a@x.com"]
      ["c@x.com"] "boom@x" Db.empty (Db.empty.delete "a@x.com") ⟨"db down"⟩
      rfl rfl

theorem delete_rows_no_email (db : Db) (email : String) :
    ∀ r ∈ (db.delete email).rows, r.email ≠ email := by
  intro r hr
  have := (List.mem_filter.mp hr).2
  simpa [beq_iff_eq] using this

theorem get_by_email_delete_self (db : Db) (email : String) :
    (db.delete email).get_by_email email = none := by
  unfold Db.get_by_email
  rw [List.find?_eq_none.mpr]
  · rfl
  · intro r hr
    simpa [beq_iff_eq] using delete_rows_no_email db email r hr

theorem mem_list_iff (db : Db) (n : Newsletter) :
    n ∈ db.list ↔ ∃ r ∈ db.rows, n = ⟨r.email, r.active⟩ := by
  unfold Db.list Db.sortedRows
  rw [List.mem_map]
  constructor
  · rintro ⟨r, hr, rfl⟩
    exact ⟨r, (List.perm_insertionSort _ _).mem_iff.mp hr, rfl⟩
  · rintro ⟨r, hr, rfl⟩
    exact ⟨r, (List.perm_insertionSort _ _).mem_iff.mpr hr, rfl⟩

/-- C6: a successful `unsubscribe` on the Postgres model leaves no row for
the email, so `get_subscription_status` returns `false` and the email is
absent from `list` — "inactive" and "absent" coincide because the row is
deleted, not flag-flipped. -/
theorem unsubscribe_deletes_row (db : Db) (email : String) (db' : Db)
    (h : unsubscribe pgRepo email db = (db', none)) :
    (∀ r ∈ db'.rows, r.email ≠ email) ∧
    get_subscription_status pgRepo email db' = .ok false ∧
    ∀ n ∈ db'.list, n.email ≠ email := by
  have hb : blank email = false := by
    by_contra hb
    rw [Bool.not_eq_false] at hb
    simp [unsubscribe, hb] at h
  rw [unsubscribe] at h
  rw [hb] at h
  simp only [Bool.false_eq_true, if_false, pgRepo, Prod.mk.injEq] at h
  obtain ⟨rfl, -⟩ := h
  refine ⟨delete_rows_no_email db email, ?_, ?_⟩
  · simp [get_subscription_status, pgRepo, get_by_email_delete_self]
  · intro n hn
    obtain ⟨r, hr, rfl⟩ := (mem_list_iff _ n).mp hn
    exact delete_rows_no_email db email r hr

/-- C6 witness: unsubscribing `a@x.com` from the table holding only its row
succeeds, after which its status is `false` and it is absent from the
list. -/
theorem unsubscribe_deletes_row_witness :
    get_subscription_status pgRepo "a@x.com"
      ((Db.empty.add "a@x.com").delete "a@x.com") = .ok false ∧
    ∀ n ∈ ((Db.empty.add "a@x.com").delete "a@x.com").list,
      n.email ≠ "a@x.com" := by
  have h := unsubscribe_deletes_row (Db.empty.add "a@x.com") "a@x.com"
    ((Db.empty.add "a@x.com").delete "a@x.com") rfl
  exact ⟨h.2.1, h.2.2⟩

theorem sortedRows_sorted (db : Db) :
    db.sortedRows.Sorted (fun a b => b.id ≤ a.id) := by
  haveI : IsTotal NewsletterRow (fun a b => b.id ≤ a.id) :=
    ⟨fun a b => Nat.le_total b.id a.id⟩
  haveI : IsTrans NewsletterRow (fun a b => b.id ≤ a.id) :=
    ⟨fun _ _ _ h1 h2 => le_trans h2 h1⟩
  exact List.sorted_insertionSort _ _

/-- C7: `list` returns exactly the stored rows (a permutation of them)
ordered by descending surrogate id, and the service `list_newsletters` is a
pass-through; concretely, after subscribing `a@x.com` and then `b@x.com`
starting from the empty table, `b@x.com` is returned before `a@x.com`. -/
theorem list_newest_first :
    (∀ db : Db,
      db.sortedRows.Sorted (fun a b => b.id ≤ a.id) ∧
      db.sortedRows.Perm db.rows ∧
      db.list = db.sortedRows.map (fun r => ⟨r.email, r.active⟩) ∧
      list_newsletters pgRepo db = .ok db.list) ∧
    list_newsletters pgRepo
        (subscribe pgRepo "b@x.com" (subscribe pgRepo "a@x.com" Db.empty).1).1 =
      .ok [⟨"b@x.com", true⟩, ⟨"a@x.com", true⟩] := by
  refine ⟨fun db => ⟨sortedRows_sorted db, List.perm_insertionSort _ _, rfl,
    rfl⟩, ?_⟩
  rfl

/-- C8: validation errors are a kind distinct from repository errors, and
the two are distinguishable from the call outcome: `subscribe` and
`unsubscribe` return a validation error exactly on invalid input (blank, or
for `subscribe` lacking `'@'`), and on valid input every error they return
is one propagated from the repository. -/
theorem validation_errors_distinct {σ : Type} (R : NewsletterRepository σ)
    (email : String) (s : σ) :
    (∀ (m : String) (e : RepoError), Err.validation m ≠ Err.repo e) ∧
    (blank email = true ∨ hasAt email = false →
      ∃ m, subscribe R email s = (s, some (.validation m))) ∧
    (blank email = false → hasAt email = true →
      ∀ err, (subscribe R email s).2 = some err →
        ∃ e, err = .repo e ∧ R.add email s = .error e) ∧
    (blank email = true →
      ∃ m, unsubscribe R email s = (s, some (.validation m))) ∧
    (blank email = false →
      ∀ err, (unsubscribe R email s).2 = some err →
        ∃ e, err = .repo e ∧ R.delete email s = .error e) := by
  refine ⟨fun m e => by simp, ?_, ?_, ?_, ?_⟩
  · intro h
    by_cases hb : blank email
    · exact ⟨"Email cannot be empty", by simp [subscribe, hb]⟩
    · have hb' : blank email = false := by simpa using hb
      have ha : hasAt email = false := h.resolve_left (by simp [hb'])
      exact ⟨"Invalid email format", by simp [subscribe, hb', ha]⟩
  · intro hb ha err herr
    rw [subscribe, hb, ha] at herr
    simp only [Bool.false_eq_true, if_false, Bool.not_true] at herr
    cases hop : R.add email s with
    | ok s1 => rw [hop] at herr; simp at herr
    | error e =>
      rw [hop] at herr
      simp only [Option.some.injEq] at herr
      exact ⟨e, herr.symm, rfl⟩
  · intro hb
    exact ⟨"Email cannot be empty", by simp [unsubscribe, hb]⟩
  · intro hb err herr
    rw [unsubscribe, hb] at herr
    simp only [Bool.false_eq_true, if_false] at herr
    cases hop : R.delete email s with
    | ok s1 => rw [hop] at herr; simp at herr
    | error e =>
      rw [hop] at herr
      simp only [Option.some.injEq] at herr
      exact ⟨e, herr.symm, rfl⟩

/-- C8 witness: on the failing repository, `subscribe("")` yields a
validation error, while `subscribe("boom@x")` (valid input) yields the
repository's own error — the two outcomes carry distinct error kinds. -/
theorem validation_errors_distinct_witness :
    (∃ m, subscribe failRepo "" Db.empty =
      (Db.empty, some (.validation m))) ∧
    (∃ e, (Err.repo ⟨"db down"⟩ : Err) = .repo e ∧
      failRepo.add "boom@x" Db.empty = .error e) := by
  constructor
  · exact (validation_errors_distinct failRepo "" Db.empty).2.1
      (Or.inl (by decide))
  · exact (validation_errors_distinct failRepo "boom@x" Db.empty).2.2.1
      (by decide) (by decide) (.repo ⟨"db down"⟩) rfl

/-- C9: email matching in `get_by_email` and `delete` is literal string
equality: any returned newsletter's email equals the query string exactly,
and a stored row whose email differs from the query in any character is
neither returned by `get_by_email` nor removed by `delete`. -/
theorem email_matching_literal (db : Db) (q : String) :
    (∀ n, db.get_by_email q = some n → n.email = q) ∧
    (∀ r ∈ db.rows, r.email ≠ q →
      (∀ n, db.get_by_email q = some n → n.email ≠ r.email) ∧
      r ∈ (db.delete q).rows) := by
  have hfst : ∀ n, db.get_by_email q = some n → n.email = q := by
    intro n hn
    unfold Db.get_by_email at hn
    cases hf : db.rows.find? (fun r => r.email == q) with
    | none => rw [hf] at hn; simp at hn
    | some r =>
      rw [hf] at hn
      have hpr := List.find?_some hf
      have heq : ({ email := r.email, active := r.active } : Newsletter) = n :=
        Option.some.inj hn
      rw [← heq]
      simpa [beq_iff_eq] using hpr
  refine ⟨hfst, fun r hr hne => ⟨?_, ?_⟩⟩
  · intro n hn
    rw [hfst n hn]
    exact fun hq => hne hq.symm
  · exact List.mem_filter.mpr ⟨hr, by simpa [beq_iff_eq] using hne⟩

/-- C9 witness: with only `A@x.com` stored, querying the lowercased
`a@x.com` finds nothing and deleting it leaves the stored row in place. -/
theorem email_matching_literal_witness :
    (Db.empty.add "A@x.com").get_by_email "a@x.com" = none ∧
    (⟨0, "A@x.com", true⟩ : NewsletterRow) ∈
      ((Db.empty.add "A@x.com").delete "a@x.com").rows := by
  refine ⟨rfl, ?_⟩
  exact ((email_matching_literal (Db.empty.add "A@x.com") "a@x.com").2
    ⟨0, "A@x.com", true⟩ (by decide) (by decide)).2
